import Mathlib

/-!
# Times-and-ESP32: `getCustomTime` (src/main.cpp, lines 59-79)

A shallow embedding of `getCustomTime`, the only function of the repository that
computes anything, together with a model of the two conversion primitives it
calls (`mktime` and `localtime` of the C library, which are not part of the
repository).

Conventions.
* The C type `int` and `time_t` are embedded as `Int`. Signed overflow is
  undefined behaviour in C, so no wrap-around is modelled.
* `struct tm` is embedded as the structure `tm` with its nine standard fields.
* `mktime` rewrites its argument in place and returns a `time_t`; it is embedded
  as a function returning the pair (instant, rewritten struct).
* `localtime` returns a pointer to a static struct, which `getCustomTime` copies
  with `memcpy` before the next call; it is embedded as a function returning the
  struct by value.
-/

namespace TimesESP32

/-! ## Data model -/

/-- The C `struct tm` of `<time.h>`. -/
structure tm where
  tm_sec : Int
  tm_min : Int
  tm_hour : Int
  tm_mday : Int
  tm_mon : Int
  tm_year : Int
  tm_wday : Int
  tm_yday : Int
  tm_isdst : Int
deriving DecidableEq

/-- The two conversion primitives `getCustomTime` calls: `mktime` (civil time to
absolute instant, rewriting the struct it is given) and `localtime` (absolute
instant to civil time). -/
structure TimeFns where
  mktime : tm → Int × tm
  localtime : Int → tm

/-! ## `getCustomTime` (src/main.cpp, lines 59-79) -/

/-- The value `{0}` assigned to `*timePtr` on line 62: every field is zero. -/
def zeroTm : tm :=
  { tm_sec := 0, tm_min := 0, tm_hour := 0, tm_mday := 0, tm_mon := 0,
    tm_year := 0, tm_wday := 0, tm_yday := 0, tm_isdst := 0 }

/-- Lines 62-68: the struct handed to the first `mktime` call. -/
def firstArg (year month day hour minute second : Int) : tm :=
  let timePtr := zeroTm
  let timePtr := { timePtr with tm_year := year - 1900 }
  let timePtr := { timePtr with tm_mon := month - 1 }
  let timePtr := { timePtr with tm_mday := day }
  let timePtr := { timePtr with tm_hour := hour }
  let timePtr := { timePtr with tm_min := minute }
  let timePtr := { timePtr with tm_sec := second }
  timePtr

/-- Line 69: the instant `t` returned by the first `mktime` call (called `t0` in
the specification). -/
def firstInstant (lib : TimeFns) (year month day hour minute second : Int) : Int :=
  (lib.mktime (firstArg year month day hour minute second)).1

/-- Lines 69-70: the struct handed to the second (probe) `mktime` call: the struct
as rewritten by the first call, with `tm_hour` decremented. -/
def probeArg (lib : TimeFns) (year month day hour minute second : Int) : tm :=
  let timePtr := (lib.mktime (firstArg year month day hour minute second)).2
  { timePtr with tm_hour := timePtr.tm_hour - 1 }

/-- Line 71: the instant `t1` returned by the probe `mktime` call. -/
def probeInstant (lib : TimeFns) (year month day hour minute second : Int) : Int :=
  (lib.mktime (probeArg lib year month day hour minute second)).1

/-- Lines 59-79: `getCustomTime`. The result is the returned `bool` together with
the final content of `*timePtr`. -/
def getCustomTime (lib : TimeFns) (year month day hour minute second : Int) : Bool × tm :=
  let timePtr := zeroTm
  let timePtr := { timePtr with tm_year := year - 1900 }
  let timePtr := { timePtr with tm_mon := month - 1 }
  let timePtr := { timePtr with tm_mday := day }
  let timePtr := { timePtr with tm_hour := hour }
  let timePtr := { timePtr with tm_min := minute }
  let timePtr := { timePtr with tm_sec := second }
  let r := lib.mktime timePtr
  let t := r.1
  let timePtr := r.2
  let timePtr := { timePtr with tm_hour := timePtr.tm_hour - 1 }
  let t1 := (lib.mktime timePtr).1
  let timePtr := lib.localtime t
  if (lib.localtime t1).tm_isdst = 1 then
    if timePtr.tm_isdst = 0 then (false, timePtr)
    else (true, { timePtr with tm_hour := timePtr.tm_hour - 1 })
  else (true, timePtr)

/-! ## The conversion primitives under the rule `CET-1CEST,M3.5.0,M10.5.0/3` -/

/-- Modelled from the spec: the calendar of the conversion primitive (absent from
the repository). Number of days from 0000-03-01 to `y`-03-01 in the proleptic
Gregorian calendar (a year has 365 days, plus one every 4th year, minus one every
100th, plus one every 400th). -/
def daysBeforeMarchYear (y : Int) : Int := 365 * y + y / 4 - y / 100 + y / 400

/-- Modelled from the spec: the calendar of the conversion primitive (absent from
the repository). Number of days from 1970-01-01 to the proleptic Gregorian date
`y`-`m`-`d`. The month may lie outside 1..12 and the day outside the month: they
roll over, which is the primitive's calendar normalization. -/
def daysFromCivil (y m d : Int) : Int :=
  let y1 := y + (m - 1) / 12
  let m1 := (m - 1) % 12 + 1
  let y2 := if m1 ≤ 2 then y1 - 1 else y1
  let mp := if m1 ≤ 2 then m1 + 9 else m1 - 3
  daysBeforeMarchYear y2 + (153 * mp + 2) / 5 + d - 1 - 719468

/-- Modelled from the spec: the calendar of the conversion primitive (absent from
the repository). The year that starts on 1 March and the day within that year
(0 is 1 March) of day number `z` counted from 1970-01-01. -/
def marchYearOfDays (z : Int) : Int × Int :=
  let z1 := z + 719468
  let era := z1 / 146097
  let doe := z1 % 146097
  let c := if 4 ≤ doe / 36524 then 3 else doe / 36524
  let doc := doe - 36524 * c
  let q := doc / 1461
  let doq := doc % 1461
  let a := if 4 ≤ doq / 365 then 3 else doq / 365
  (400 * era + 100 * c + 4 * q + a, doq - 365 * a)

/-- Modelled from the spec: the calendar of the conversion primitive (absent from
the repository). The civil date (year, month 1..12, day) of day `doy` of the year
that starts on 1 March of `y`. -/
def civilOfMarchYear (y doy : Int) : Int × Int × Int :=
  let mp := (5 * doy + 2) / 153
  let d := doy - (153 * mp + 2) / 5 + 1
  let m := if mp < 10 then mp + 3 else mp - 9
  (if m ≤ 2 then y + 1 else y, m, d)

/-- Modelled from the spec: the calendar of the conversion primitive (absent from
the repository). The proleptic Gregorian date (year, month 1..12, day) of day
number `z` counted from 1970-01-01. -/
def civilFromDays (z : Int) : Int × Int × Int :=
  civilOfMarchYear (marchYearOfDays z).1 (marchYearOfDays z).2

/-- Modelled from the spec: the wall-clock reading of a `struct tm` (absent
primitive), as seconds counted from 1970-01-01 00:00:00 on the same wall clock.
Out-of-range fields simply add up, which is the primitive's rollover. -/
def wallSeconds (tp : tm) : Int :=
  86400 * daysFromCivil (tp.tm_year + 1900) (tp.tm_mon + 1) tp.tm_mday
    + 3600 * tp.tm_hour + 60 * tp.tm_min + tp.tm_sec

/-- Modelled from the spec: the normalized `struct tm` (absent primitive) that
reads wall-clock second `w` with DST flag `isdst`. -/
def brokenDown (w : Int) (isdst : Int) : tm :=
  let days := w / 86400
  let rem := w % 86400
  let c := civilFromDays days
  { tm_sec := rem % 60, tm_min := rem % 3600 / 60, tm_hour := rem / 3600,
    tm_mday := c.2.2, tm_mon := c.2.1 - 1, tm_year := c.1 - 1900,
    tm_wday := (days + 4) % 7, tm_yday := days - daysFromCivil c.1 1 1,
    tm_isdst := isdst }

/-- Modelled from the spec: day number of the last Sunday of the 31-day month `m`
of year `y` (the `M3.5.0` and `M10.5.0` parts of the rule; day 0 of the week is
Sunday and 1970-01-01 was a Thursday). -/
def lastSunday (y m : Int) : Int :=
  let z := daysFromCivil y m 31
  z - (z + 4) % 7

/-- Modelled from the spec: the UTC instant at which DST starts in year `y` under
`CET-1CEST,M3.5.0,M10.5.0/3`: last Sunday of March, 02:00 standard time (UTC+1). -/
def dstStart (y : Int) : Int := 86400 * lastSunday y 3 + 7200 - 3600

/-- Modelled from the spec: the UTC instant at which DST ends in year `y` under
`CET-1CEST,M3.5.0,M10.5.0/3`: last Sunday of October, 03:00 DST (UTC+2). -/
def dstEnd (y : Int) : Int := 86400 * lastSunday y 10 + 10800 - 7200

/-- Modelled from the spec: whether DST is in effect at the absolute instant `t`
(seconds since 1970-01-01 00:00:00 UTC) under the rule. -/
def isDST (t : Int) : Bool :=
  let y := (civilFromDays (t / 86400)).1
  decide (dstStart y ≤ t ∧ t < dstEnd y)

/-- Modelled from the spec: the absolute-to-civil primitive `localtime` (absent
from the repository) under `CET-1CEST,M3.5.0,M10.5.0/3`: offset +2:00 and
`tm_isdst = 1` while DST is in effect, offset +1:00 and `tm_isdst = 0` otherwise. -/
def localtime (t : Int) : tm :=
  if isDST t then brokenDown (t + 7200) 1 else brokenDown (t + 3600) 0

/-- Modelled from the spec: the civil-to-absolute primitive `mktime` (absent from
the repository) under `CET-1CEST,M3.5.0,M10.5.0/3`. The wall-clock reading of the
struct is taken as DST (UTC+2) when `tm_isdst` is positive and as standard time
(UTC+1) when it is zero; when it is negative the rule decides, a reading in the
fall-back overlap being taken as standard time and a reading in the spring-forward
gap being skipped forward. The struct is rewritten to the civil time of the
returned instant, as `localtime` reports it. -/
def mktime (tp : tm) : Int × tm :=
  let w := wallSeconds tp
  let y := (civilFromDays (w / 86400)).1
  let t :=
    if 0 < tp.tm_isdst then w - 7200
    else if tp.tm_isdst = 0 then w - 3600
    else if dstStart y + 7200 ≤ w ∧ w < dstEnd y + 3600 then w - 7200
    else w - 3600
  (t, localtime t)

/-- The C library primitives under `CET-1CEST,M3.5.0,M10.5.0/3`, the `TIME_ZONE`
of line 37 that `setup` installs on line 104. -/
def libc : TimeFns := { mktime := mktime, localtime := localtime }

/-! ## Calendar lemmas -/

theorem daysBeforeMarchYear_mono (x y : Int) (h : x + 1 ≤ y) :
    daysBeforeMarchYear (x + 1) ≤ daysBeforeMarchYear y := by
  simp only [daysBeforeMarchYear]; omega

theorem daysBeforeMarchYear_step (y : Int) :
    daysBeforeMarchYear y + 365 ≤ daysBeforeMarchYear (y + 1) ∧
      daysBeforeMarchYear (y + 1) ≤ daysBeforeMarchYear y + 366 := by
  simp only [daysBeforeMarchYear]; omega

theorem daysBeforeMarchYear_parts (era c q a : Int) (hc : 0 ≤ c ∧ c ≤ 3)
    (hq : 0 ≤ q ∧ q ≤ 24) (ha : 0 ≤ a ∧ a ≤ 3) :
    daysBeforeMarchYear (400 * era + 100 * c + 4 * q + a)
      = 146097 * era + 36524 * c + 1461 * q + 365 * a := by
  simp only [daysBeforeMarchYear]; omega

theorem daysBeforeMarchYear_parts_succ (era c q a : Int) (hc : 0 ≤ c ∧ c ≤ 3)
    (hq : 0 ≤ q ∧ q ≤ 24) (ha : 0 ≤ a ∧ a ≤ 3) :
    daysBeforeMarchYear (400 * era + 100 * c + 4 * q + a + 1)
      = 146097 * era + 36524 * c + 1461 * q + 365 * a
        + (if a = 3 ∧ (q < 24 ∨ c = 3) then 366 else 365) := by
  by_cases h1 : a < 3
  · have e : 400 * era + 100 * c + 4 * q + a + 1
        = 400 * era + 100 * c + 4 * q + (a + 1) := by ring
    rw [e, daysBeforeMarchYear_parts era c q (a + 1) hc hq (by omega)]
    split_ifs <;> omega
  · by_cases h2 : q < 24
    · have e : 400 * era + 100 * c + 4 * q + a + 1
          = 400 * era + 100 * c + 4 * (q + 1) + 0 := by omega
      rw [e, daysBeforeMarchYear_parts era c (q + 1) 0 hc (by omega) (by omega)]
      split_ifs <;> omega
    · by_cases h3 : c < 3
      · have e : 400 * era + 100 * c + 4 * q + a + 1
            = 400 * era + 100 * (c + 1) + 4 * 0 + 0 := by omega
        rw [e, daysBeforeMarchYear_parts era (c + 1) 0 0 (by omega) (by omega) (by omega)]
        split_ifs <;> omega
      · have e : 400 * era + 100 * c + 4 * q + a + 1
            = 400 * (era + 1) + 100 * 0 + 4 * 0 + 0 := by omega
        rw [e, daysBeforeMarchYear_parts (era + 1) 0 0 0 (by omega) (by omega) (by omega)]
        split_ifs <;> omega

/-- The March-based year and day of year of a day number locate it exactly. -/
theorem marchYearOfDays_spec (z : Int) :
    daysBeforeMarchYear (marchYearOfDays z).1 + (marchYearOfDays z).2 = z + 719468 ∧
    0 ≤ (marchYearOfDays z).2 ∧
    daysBeforeMarchYear (marchYearOfDays z).1 + (marchYearOfDays z).2
      < daysBeforeMarchYear ((marchYearOfDays z).1 + 1) := by
  have key : ∀ era doe : Int, 0 ≤ doe → doe < 146097 →
      ∀ c, c = (if 4 ≤ doe / 36524 then 3 else doe / 36524) →
      ∀ q, q = (doe - 36524 * c) / 1461 →
      ∀ a, a = (if 4 ≤ (doe - 36524 * c) % 1461 / 365 then 3
                else (doe - 36524 * c) % 1461 / 365) →
      daysBeforeMarchYear (400 * era + 100 * c + 4 * q + a)
          + ((doe - 36524 * c) % 1461 - 365 * a) = 146097 * era + doe ∧
      0 ≤ (doe - 36524 * c) % 1461 - 365 * a ∧
      daysBeforeMarchYear (400 * era + 100 * c + 4 * q + a)
          + ((doe - 36524 * c) % 1461 - 365 * a)
        < daysBeforeMarchYear (400 * era + 100 * c + 4 * q + a + 1) := by
    intro era doe h0 h1 c hc q hq a ha
    have bc : 0 ≤ c ∧ c ≤ 3 := by split_ifs at hc <;> omega
    have bq : 0 ≤ q ∧ q ≤ 24 := by split_ifs at hc <;> omega
    have ba : 0 ≤ a ∧ a ≤ 3 := by split_ifs at ha <;> omega
    rw [daysBeforeMarchYear_parts era c q a bc bq ba,
      daysBeforeMarchYear_parts_succ era c q a bc bq ba]
    refine ⟨by split_ifs at ha <;> omega, by split_ifs at ha <;> omega, ?_⟩
    split_ifs at ha hc ⊢ <;> omega
  have := key ((z + 719468) / 146097) ((z + 719468) % 146097) (by omega) (by omega)
    _ rfl _ rfl _ rfl
  simp only [marchYearOfDays]
  refine ⟨?_, this.2.1, this.2.2⟩
  rw [this.1]; omega

theorem marchYearOfDays_doy_le (z : Int) : (marchYearOfDays z).2 ≤ 365 := by
  have h := marchYearOfDays_spec z
  have s := daysBeforeMarchYear_step (marchYearOfDays z).1
  omega

/-- A day number lying in the March-based year `y` has that year. -/
theorem marchYearOfDays_unique (y z : Int) (h1 : daysBeforeMarchYear y ≤ z + 719468)
    (h2 : z + 719468 < daysBeforeMarchYear (y + 1)) :
    marchYearOfDays z = (y, z + 719468 - daysBeforeMarchYear y) := by
  obtain ⟨e1, e2, e3⟩ := marchYearOfDays_spec z
  have hy : (marchYearOfDays z).1 = y := by
    rcases lt_trichotomy (marchYearOfDays z).1 y with h | h | h
    · have := daysBeforeMarchYear_mono _ _ (show (marchYearOfDays z).1 + 1 ≤ y by omega)
      omega
    · exact h
    · have := daysBeforeMarchYear_mono _ _ (show y + 1 ≤ (marchYearOfDays z).1 by omega)
      omega
  apply Prod.ext
  · exact hy
  · simp only; rw [← hy]; omega

/-- The civil date of a day of a March-based year: its day number and its year. -/
theorem civilOfMarchYear_spec (y doy : Int) (h0 : 0 ≤ doy) (h1 : doy ≤ 365) :
    daysFromCivil (civilOfMarchYear y doy).1 (civilOfMarchYear y doy).2.1
        (civilOfMarchYear y doy).2.2 = daysBeforeMarchYear y + doy - 719468 ∧
    (civilOfMarchYear y doy).1 = (if 306 ≤ doy then y + 1 else y) := by
  have hmp : 0 ≤ (5 * doy + 2) / 153 ∧ (5 * doy + 2) / 153 ≤ 11 := by omega
  by_cases h10 : (5 * doy + 2) / 153 < 10
  · have h2 : ¬ (5 * doy + 2) / 153 + 3 ≤ 2 := by omega
    have e1 : ((5 * doy + 2) / 153 + 3 - 1) / 12 = 0 := by omega
    have e2 : ((5 * doy + 2) / 153 + 3 - 1) % 12 + 1 = (5 * doy + 2) / 153 + 3 := by omega
    have e3 : (5 * doy + 2) / 153 + 3 - 3 = (5 * doy + 2) / 153 := by omega
    have h306 : ¬ 306 ≤ doy := by omega
    simp only [civilOfMarchYear, daysFromCivil, if_pos h10, if_neg h2, e1, e2, e3, add_zero,
      if_neg h306, and_true]
    omega
  · have h2 : (5 * doy + 2) / 153 - 9 ≤ 2 := by omega
    have e1 : ((5 * doy + 2) / 153 - 9 - 1) / 12 = 0 := by omega
    have e2 : ((5 * doy + 2) / 153 - 9 - 1) % 12 + 1 = (5 * doy + 2) / 153 - 9 := by omega
    have e3 : (5 * doy + 2) / 153 - 9 + 9 = (5 * doy + 2) / 153 := by omega
    have e4 : y + 1 - 1 = y := by omega
    have h306 : 306 ≤ doy := by omega
    simp only [civilOfMarchYear, daysFromCivil, if_neg h10, if_pos h2, e1, e2, e3, e4, add_zero,
      if_pos h306, and_true]
    omega

/-- Converting a day number to a civil date and back is the identity. -/
theorem daysFromCivil_civilFromDays (z : Int) :
    daysFromCivil (civilFromDays z).1 (civilFromDays z).2.1 (civilFromDays z).2.2 = z := by
  have h := marchYearOfDays_spec z
  have h5 := marchYearOfDays_doy_le z
  have c := civilOfMarchYear_spec (marchYearOfDays z).1 (marchYearOfDays z).2 h.2.1 h5
  simp only [civilFromDays]
  rw [c.1]; omega

theorem daysFromCivil_jan1 (y : Int) :
    daysFromCivil y 1 1 = daysBeforeMarchYear (y - 1) + 306 - 719468 := by
  simp only [daysFromCivil]
  norm_num

theorem daysFromCivil_day (y m d : Int) :
    daysFromCivil y m d = daysFromCivil y m 1 + (d - 1) := by
  simp only [daysFromCivil]; omega

theorem daysFromCivil_mar1 (y : Int) :
    daysFromCivil y 3 1 = daysBeforeMarchYear y - 719468 := by
  simp only [daysFromCivil]
  norm_num

theorem daysFromCivil_oct1 (y : Int) :
    daysFromCivil y 10 1 = daysBeforeMarchYear y + 214 - 719468 := by
  simp only [daysFromCivil]
  norm_num

/-- The civil year of a day number is the year whose 1 January .. 31 December
contains it. -/
theorem civilYear_spec (z : Int) :
    daysFromCivil (civilFromDays z).1 1 1 ≤ z ∧ z < daysFromCivil ((civilFromDays z).1 + 1) 1 1 := by
  have h := marchYearOfDays_spec z
  have h5 := marchYearOfDays_doy_le z
  have c := civilOfMarchYear_spec (marchYearOfDays z).1 (marchYearOfDays z).2 h.2.1 h5
  have s := daysBeforeMarchYear_step ((marchYearOfDays z).1 - 1)
  have s1 := daysBeforeMarchYear_step (marchYearOfDays z).1
  rw [sub_add_cancel] at s
  simp only [civilFromDays, daysFromCivil_jan1]
  rw [c.2]
  split_ifs with h306
  · rw [add_sub_cancel_right, add_sub_cancel_right]; omega
  · rw [add_sub_cancel_right]; omega

theorem civilYear_unique (y z : Int) (h1 : daysFromCivil y 1 1 ≤ z)
    (h2 : z < daysFromCivil (y + 1) 1 1) : (civilFromDays z).1 = y := by
  obtain ⟨e1, e2⟩ := civilYear_spec z
  rw [daysFromCivil_jan1] at h1 h2 e1 e2
  rw [add_sub_cancel_right] at h2 e2
  rcases lt_trichotomy (civilFromDays z).1 y with h | h | h
  · have := daysBeforeMarchYear_mono ((civilFromDays z).1 - 1) (y - 1) (by omega)
    rw [sub_add_cancel] at this
    omega
  · exact h
  · have := daysBeforeMarchYear_mono (y - 1) ((civilFromDays z).1 - 1) (by omega)
    rw [sub_add_cancel] at this
    omega

/-! ## `getCustomTime` over arbitrary primitives -/

/-- The body of `getCustomTime` after line 71, in terms of the two instants. -/
theorem getCustomTime_eq (lib : TimeFns) (year month day hour minute second : Int) :
    getCustomTime lib year month day hour minute second =
      if (lib.localtime (probeInstant lib year month day hour minute second)).tm_isdst = 1 then
        if (lib.localtime (firstInstant lib year month day hour minute second)).tm_isdst = 0 then
          (false, lib.localtime (firstInstant lib year month day hour minute second))
        else
          (true, { lib.localtime (firstInstant lib year month day hour minute second) with
                    tm_hour :=
                      (lib.localtime (firstInstant lib year month day hour minute second)).tm_hour
                        - 1 })
      else (true, lib.localtime (firstInstant lib year month day hour minute second)) :=
  rfl

/-! ## The primitives under the rule: wall clock and instants -/

/-- A normalized struct reads the wall-clock second it was made from. -/
theorem wallSeconds_brokenDown (w i : Int) : wallSeconds (brokenDown w i) = w := by
  have h := daysFromCivil_civilFromDays (w / 86400)
  simp only [wallSeconds, brokenDown, sub_add_cancel]
  rw [h]; omega

theorem localtime_isdst (t : Int) : (localtime t).tm_isdst = if isDST t then 1 else 0 := by
  simp only [localtime]
  split_ifs <;> rfl

theorem wallSeconds_localtime (t : Int) :
    wallSeconds (localtime t) = t + (if isDST t then 7200 else 3600) := by
  simp only [localtime]
  split_ifs <;> exact wallSeconds_brokenDown _ _

/-- With the hint `tm_isdst = 0` the reading is taken as standard time (UTC+1). -/
theorem mktime_standard (tp : tm) (h : tp.tm_isdst = 0) :
    (mktime tp).1 = wallSeconds tp - 3600 := by
  simp [mktime, h]

/-- With a positive hint the reading is taken as DST (UTC+2). -/
theorem mktime_daylight (tp : tm) (h : 0 < tp.tm_isdst) :
    (mktime tp).1 = wallSeconds tp - 7200 := by
  simp [mktime, h]

theorem firstArg_isdst (year month day hour minute second : Int) :
    (firstArg year month day hour minute second).tm_isdst = 0 := rfl

/-- The first conversion reads the input as standard time. -/
theorem firstInstant_libc (year month day hour minute second : Int) :
    firstInstant libc year month day hour minute second
      = wallSeconds (firstArg year month day hour minute second) - 3600 :=
  mktime_standard _ (firstArg_isdst year month day hour minute second)

/-- The probe instant is exactly one hour before the first instant. -/
theorem probeInstant_libc (year month day hour minute second : Int) :
    probeInstant libc year month day hour minute second
      = firstInstant libc year month day hour minute second - 3600 := by
  have hw : wallSeconds (probeArg libc year month day hour minute second)
      = wallSeconds (localtime (firstInstant libc year month day hour minute second)) - 3600 := by
    simp only [wallSeconds, probeArg, firstInstant, libc, mktime]
    omega
  have hd : (probeArg libc year month day hour minute second).tm_isdst
      = (localtime (firstInstant libc year month day hour minute second)).tm_isdst := rfl
  rw [wallSeconds_localtime] at hw
  rw [localtime_isdst] at hd
  show (mktime (probeArg libc year month day hour minute second)).1 = _
  by_cases hdst : isDST (firstInstant libc year month day hour minute second) = true
  · rw [if_pos hdst] at hw hd
    rw [mktime_daylight _ (by omega), hw]; omega
  · rw [if_neg hdst] at hw hd
    rw [mktime_standard _ hd, hw]; omega

theorem wallSeconds_firstArg (year month day hour minute second : Int) :
    wallSeconds (firstArg year month day hour minute second)
      = 86400 * daysFromCivil year month day + 3600 * hour + 60 * minute + second := by
  simp only [wallSeconds, firstArg, sub_add_cancel]

theorem isDST_of_year (t y : Int) (hy : (civilFromDays (t / 86400)).1 = y) :
    isDST t = decide (dstStart y ≤ t ∧ t < dstEnd y) := by
  simp only [isDST, hy]

/-- The transitions of 2024: 31 March 01:00 UTC and 27 October 01:00 UTC. -/
theorem dst_2024 : dstStart 2024 = 1711846800 ∧ dstEnd 2024 = 1729990800 := by
  decide

/-- Instants of 31 March 2024 (UTC date) are under DST from 01:00:00 UTC on. -/
theorem isDST_mar31 (r : Int) (h0 : 0 ≤ r) (h1 : r < 86400) :
    isDST (86400 * 19813 + r) = decide (3600 ≤ r) := by
  have hd : (86400 * 19813 + r) / 86400 = 19813 := by omega
  have hy : (civilFromDays ((86400 * 19813 + r) / 86400)).1 = 2024 := by rw [hd]; decide
  rw [isDST_of_year _ _ hy, dst_2024.1, dst_2024.2]
  by_cases h : 3600 ≤ r
  · simp only [h, decide_True, decide_eq_true_eq]; omega
  · simp only [h, decide_False, decide_eq_false_iff_not]; omega

/-- Instants of 27 October 2024 (UTC date) are under DST before 01:00:00 UTC. -/
theorem isDST_oct27 (r : Int) (h0 : 0 ≤ r) (h1 : r < 86400) :
    isDST (86400 * 20023 + r) = decide (r < 3600) := by
  have hd : (86400 * 20023 + r) / 86400 = 20023 := by omega
  have hy : (civilFromDays ((86400 * 20023 + r) / 86400)).1 = 2024 := by rw [hd]; decide
  rw [isDST_of_year _ _ hy, dst_2024.1, dst_2024.2]
  by_cases h : r < 3600
  · simp only [h, decide_True, decide_eq_true_eq]; omega
  · simp only [h, decide_False, decide_eq_false_iff_not]; omega

/-- Under the rule, the outcome of `getCustomTime` in terms of the first instant. -/
theorem getCustomTime_libc (year month day hour minute second : Int) :
    getCustomTime libc year month day hour minute second =
      if isDST (firstInstant libc year month day hour minute second - 3600) = true then
        if isDST (firstInstant libc year month day hour minute second) = true then
          (true, { localtime (firstInstant libc year month day hour minute second) with
                    tm_hour :=
                      (localtime (firstInstant libc year month day hour minute second)).tm_hour
                        - 1 })
        else (false, localtime (firstInstant libc year month day hour minute second))
      else (true, localtime (firstInstant libc year month day hour minute second)) := by
  have hl : libc.localtime = localtime := rfl
  rw [getCustomTime_eq, probeInstant_libc, hl, localtime_isdst, localtime_isdst]
  by_cases h1 : isDST (firstInstant libc year month day hour minute second - 3600) = true
  · by_cases h0 : isDST (firstInstant libc year month day hour minute second) = true
    · simp [h1, h0]
    · simp [h1, h0]
  · simp [h1]

/-- The first instant when the input is read off a struct. -/
theorem firstInstant_libc_of_tm (r : tm) :
    firstInstant libc (r.tm_year + 1900) (r.tm_mon + 1) r.tm_mday r.tm_hour r.tm_min r.tm_sec
      = wallSeconds r - 3600 := by
  rw [firstInstant_libc, wallSeconds_firstArg]
  simp only [wallSeconds]

theorem lastSunday_mar_bounds (y : Int) :
    daysBeforeMarchYear y - 719468 + 24 ≤ lastSunday y 3 ∧
      lastSunday y 3 ≤ daysBeforeMarchYear y - 719468 + 30 := by
  simp only [lastSunday]
  rw [daysFromCivil_day y 3 31, daysFromCivil_mar1]
  omega

theorem lastSunday_oct_bounds (y : Int) :
    daysBeforeMarchYear y - 719468 + 238 ≤ lastSunday y 10 ∧
      lastSunday y 10 ≤ daysBeforeMarchYear y - 719468 + 244 := by
  simp only [lastSunday]
  rw [daysFromCivil_day y 10 31, daysFromCivil_oct1]
  omega

/-- Day numbers from 1 March to 31 December of `y` have civil year `y`. -/
theorem civilYear_of_march_days (y z : Int) (h1 : daysBeforeMarchYear y - 719468 ≤ z)
    (h2 : z ≤ daysBeforeMarchYear y - 719468 + 305) : (civilFromDays z).1 = y := by
  apply civilYear_unique
  · rw [daysFromCivil_jan1]
    have s := daysBeforeMarchYear_step (y - 1)
    rw [sub_add_cancel] at s
    omega
  · rw [daysFromCivil_jan1, add_sub_cancel_right]
    omega

/-- Day numbers from 1 January to the end of February of `y` have civil year `y`. -/
theorem civilYear_of_winter_days (y z : Int)
    (h1 : daysBeforeMarchYear (y - 1) - 719468 + 306 ≤ z)
    (h2 : z < daysBeforeMarchYear y - 719468) : (civilFromDays z).1 = y := by
  apply civilYear_unique
  · rw [daysFromCivil_jan1]; omega
  · rw [daysFromCivil_jan1, add_sub_cancel_right]; omega

/-- Decrementing the hour field of a normalized struct whose hour is at least 1
gives the normalized struct of the wall-clock reading one hour earlier. -/
theorem brokenDown_hour_back (w i : Int) (h : 3600 ≤ w % 86400) :
    { brokenDown w i with tm_hour := (brokenDown w i).tm_hour - 1 } = brokenDown (w - 3600) i := by
  have e1 : (w - 3600) / 86400 = w / 86400 := by omega
  have e2 : (w - 3600) % 86400 = w % 86400 - 3600 := by omega
  simp only [brokenDown, e1, e2]
  congr 1 <;> omega

/-- The spring-forward hour: an instant under DST whose preceding hour is not. -/
theorem spring_forward_hour (t : Int) (h0 : isDST t = true) (h1 : isDST (t - 3600) = false) :
    isDST (t + 3600) = true ∧ 3600 ≤ (t + 10800) % 86400 := by
  have bm := lastSunday_mar_bounds (civilFromDays (t / 86400)).1
  have bo := lastSunday_oct_bounds (civilFromDays (t / 86400)).1
  rw [isDST_of_year t _ rfl, decide_eq_true_eq] at h0
  simp only [dstStart, dstEnd] at h0
  have hy1 : (civilFromDays ((t - 3600) / 86400)).1 = (civilFromDays (t / 86400)).1 :=
    civilYear_of_march_days _ _ (by omega) (by omega)
  have hy2 : (civilFromDays ((t + 3600) / 86400)).1 = (civilFromDays (t / 86400)).1 :=
    civilYear_of_march_days _ _ (by omega) (by omega)
  rw [isDST_of_year _ _ hy1, decide_eq_false_iff_not] at h1
  simp only [dstStart, dstEnd] at h1
  refine ⟨?_, by omega⟩
  rw [isDST_of_year _ _ hy2, decide_eq_true_eq]
  simp only [dstStart, dstEnd]
  omega

/-! ## Claims -/

/-- C1: `getCustomTime` is total, and it returns false (ambiguous) exactly when
`localtime(t1).tm_isdst == 1` and `localtime(t0).tm_isdst == 0`, where `t0` and `t1`
are the results of the first and of the probe `mktime` call; in every other case
it returns true. This holds for every input and every pair of primitives. -/
theorem getCustomTime_false_iff (lib : TimeFns) (year month day hour minute second : Int) :
    ((getCustomTime lib year month day hour minute second).1 = false ↔
      (lib.localtime (probeInstant lib year month day hour minute second)).tm_isdst = 1 ∧
      (lib.localtime (firstInstant lib year month day hour minute second)).tm_isdst = 0) ∧
    ((getCustomTime lib year month day hour minute second).1 = true ↔
      ¬ ((lib.localtime (probeInstant lib year month day hour minute second)).tm_isdst = 1 ∧
        (lib.localtime (firstInstant lib year month day hour minute second)).tm_isdst = 0)) := by
  rw [getCustomTime_eq]
  by_cases h1 : (lib.localtime (probeInstant lib year month day hour minute second)).tm_isdst = 1
  · by_cases h0 :
        (lib.localtime (firstInstant lib year month day hour minute second)).tm_isdst = 0
    · simp [h1, h0]
    · simp [h1, h0]
  · simp [h1]

/-- C6, refuted as stated: under the rule, for the summer input 2024-07-01 12:00:00
`getCustomTime` returns true but the struct it leaves (12:00:00) is not
`localtime(t0)` (13:00:00). -/
theorem getCustomTime_true_not_localtime :
    (getCustomTime libc 2024 7 1 12 0 0).1 = true ∧
    (getCustomTime libc 2024 7 1 12 0 0).2 ≠ libc.localtime (firstInstant libc 2024 7 1 12 0 0) ∧
    (getCustomTime libc 2024 7 1 12 0 0).2.tm_hour = 12 ∧
    (libc.localtime (firstInstant libc 2024 7 1 12 0 0)).tm_hour = 13 := by
  decide

/-- C6, amended: whenever `getCustomTime` returns true, the struct it leaves has the
`tm_isdst` of `localtime(t0)`; it is exactly `localtime(t0)` when
`localtime(t1).tm_isdst` is not 1; and when `localtime(t1).tm_isdst` is 1 (then
`localtime(t0).tm_isdst` is not 0) and `localtime(t0).tm_hour` is at least 1, it is
`localtime(t0)` with `tm_hour` decreased by one and every other field unchanged. -/
theorem getCustomTime_true_struct (lib : TimeFns) (year month day hour minute second : Int)
    (h : (getCustomTime lib year month day hour minute second).1 = true) :
    (getCustomTime lib year month day hour minute second).2.tm_isdst
      = (lib.localtime (firstInstant lib year month day hour minute second)).tm_isdst ∧
    ((lib.localtime (probeInstant lib year month day hour minute second)).tm_isdst ≠ 1 →
      (getCustomTime lib year month day hour minute second).2
        = lib.localtime (firstInstant lib year month day hour minute second)) ∧
    ((lib.localtime (probeInstant lib year month day hour minute second)).tm_isdst = 1 →
      1 ≤ (lib.localtime (firstInstant lib year month day hour minute second)).tm_hour →
      (lib.localtime (firstInstant lib year month day hour minute second)).tm_isdst ≠ 0 ∧
      (getCustomTime lib year month day hour minute second).2
        = { lib.localtime (firstInstant lib year month day hour minute second) with
            tm_hour :=
              (lib.localtime (firstInstant lib year month day hour minute second)).tm_hour
                - 1 }) := by
  rw [getCustomTime_eq] at h ⊢
  by_cases h1 : (lib.localtime (probeInstant lib year month day hour minute second)).tm_isdst = 1
  · by_cases h0 :
        (lib.localtime (firstInstant lib year month day hour minute second)).tm_isdst = 0
    · simp [h1, h0] at h
    · simp [h1, h0]
  · simp [h1]

/-- Witness for C6 amended: the summer input 2024-07-01 12:00:00 under the rule. -/
theorem getCustomTime_true_struct_witness :
    (getCustomTime libc 2024 7 1 12 0 0).2.tm_isdst
      = (libc.localtime (firstInstant libc 2024 7 1 12 0 0)).tm_isdst ∧
    ((libc.localtime (probeInstant libc 2024 7 1 12 0 0)).tm_isdst ≠ 1 →
      (getCustomTime libc 2024 7 1 12 0 0).2
        = libc.localtime (firstInstant libc 2024 7 1 12 0 0)) ∧
    ((libc.localtime (probeInstant libc 2024 7 1 12 0 0)).tm_isdst = 1 →
      1 ≤ (libc.localtime (firstInstant libc 2024 7 1 12 0 0)).tm_hour →
      (libc.localtime (firstInstant libc 2024 7 1 12 0 0)).tm_isdst ≠ 0 ∧
      (getCustomTime libc 2024 7 1 12 0 0).2
        = { libc.localtime (firstInstant libc 2024 7 1 12 0 0) with
            tm_hour := (libc.localtime (firstInstant libc 2024 7 1 12 0 0)).tm_hour - 1 }) :=
  getCustomTime_true_struct libc 2024 7 1 12 0 0 (by decide)

/-- C9, refuted as stated: the struct handed to the first `mktime` call does not
carry the hint unknown; its `tm_isdst` is 0, not negative (shown for the input
2024-07-01 12:00:00). -/
theorem firstArg_isdst_not_unknown :
    ¬ (firstArg 2024 7 1 12 0 0).tm_isdst < 0 ∧ (firstArg 2024 7 1 12 0 0).tm_isdst = 0 := by
  decide

/-- C9, amended: for every input and every pair of primitives, `getCustomTime`
consults `mktime` at exactly two structs. The first call (the one that yields `t0`)
is handed a struct whose `tm_isdst` is 0, the value left by the zero-initialisation
`{0}`; the probe call (the one that yields `t1`) is handed the struct as the first
call rewrote it, with only `tm_hour` decremented, so with the `tm_isdst` that the
first `mktime` call wrote. The outcome of `getCustomTime` is computed from the
results of these two calls, and replacing `mktime` by any function that agrees with
it on these two structs (with the same `localtime`) leaves the outcome unchanged. -/
theorem mktime_hints (lib lib' : TimeFns) (year month day hour minute second : Int)
    (hl : lib'.localtime = lib.localtime)
    (h0 : lib'.mktime (firstArg year month day hour minute second)
      = lib.mktime (firstArg year month day hour minute second))
    (h1 : lib'.mktime (probeArg lib year month day hour minute second)
      = lib.mktime (probeArg lib year month day hour minute second)) :
    getCustomTime lib' year month day hour minute second
      = getCustomTime lib year month day hour minute second ∧
    getCustomTime lib year month day hour minute second
      = (if (lib.localtime
            (lib.mktime (probeArg lib year month day hour minute second)).1).tm_isdst = 1 then
          if (lib.localtime
              (lib.mktime (firstArg year month day hour minute second)).1).tm_isdst = 0 then
            (false, lib.localtime (lib.mktime (firstArg year month day hour minute second)).1)
          else
            (true, { lib.localtime (lib.mktime (firstArg year month day hour minute second)).1
                      with tm_hour :=
                        (lib.localtime
                          (lib.mktime (firstArg year month day hour minute second)).1).tm_hour
                          - 1 })
        else (true, lib.localtime (lib.mktime (firstArg year month day hour minute second)).1)) ∧
    firstArg year month day hour minute second
      = { tm_sec := second, tm_min := minute, tm_hour := hour, tm_mday := day,
          tm_mon := month - 1, tm_year := year - 1900, tm_wday := 0, tm_yday := 0,
          tm_isdst := 0 } ∧
    firstInstant lib year month day hour minute second
      = (lib.mktime (firstArg year month day hour minute second)).1 ∧
    (firstArg year month day hour minute second).tm_isdst = 0 ∧
    probeInstant lib year month day hour minute second
      = (lib.mktime (probeArg lib year month day hour minute second)).1 ∧
    probeArg lib year month day hour minute second
      = { (lib.mktime (firstArg year month day hour minute second)).2 with
          tm_hour := (lib.mktime (firstArg year month day hour minute second)).2.tm_hour - 1 } ∧
    (probeArg lib year month day hour minute second).tm_isdst
      = (lib.mktime (firstArg year month day hour minute second)).2.tm_isdst := by
  have hp : probeArg lib' year month day hour minute second
      = probeArg lib year month day hour minute second := by
    simp only [probeArg, h0]
  refine ⟨?_, rfl, rfl, rfl, rfl, rfl, rfl, rfl⟩
  simp only [getCustomTime_eq, firstInstant, probeInstant, hp, h0, h1, hl]

/-- Witness for C9 amended: under the rule, for the input 2024-07-01 12:00:00, a
`mktime` that is broken on every struct whose `tm_isdst` is negative (the hint
unknown) agrees with the real one on the two structs `getCustomTime` hands it, so
the outcome is unchanged. -/
theorem mktime_hints_witness :
    getCustomTime
        { mktime := fun tp => if tp.tm_isdst < 0 then (0, zeroTm) else mktime tp,
          localtime := localtime } 2024 7 1 12 0 0
      = getCustomTime libc 2024 7 1 12 0 0 ∧
    (firstArg 2024 7 1 12 0 0).tm_isdst = 0 ∧
    (probeArg libc 2024 7 1 12 0 0).tm_isdst = 1 :=
  have h := mktime_hints libc
    { mktime := fun tp => if tp.tm_isdst < 0 then (0, zeroTm) else mktime tp,
      localtime := localtime } 2024 7 1 12 0 0 rfl (by decide) (by decide)
  ⟨h.1, h.2.2.2.2.1, by decide⟩

/-- C8: under the rule, whenever `getCustomTime` returns false the probe instant
`t1` and the first instant `t0` have different `tm_isdst` under `localtime`,
`t1 < t0`, and `t0 - t1` is exactly 3600 seconds. -/
theorem ambiguous_instants (year month day hour minute second : Int)
    (h : (getCustomTime libc year month day hour minute second).1 = false) :
    (libc.localtime (probeInstant libc year month day hour minute second)).tm_isdst
      ≠ (libc.localtime (firstInstant libc year month day hour minute second)).tm_isdst ∧
    probeInstant libc year month day hour minute second
      < firstInstant libc year month day hour minute second ∧
    firstInstant libc year month day hour minute second
      - probeInstant libc year month day hour minute second = 3600 := by
  have hp := probeInstant_libc year month day hour minute second
  refine ⟨?_, by omega, by omega⟩
  rw [getCustomTime_eq] at h
  by_cases h1 :
      (libc.localtime (probeInstant libc year month day hour minute second)).tm_isdst = 1
  · by_cases h0 :
        (libc.localtime (firstInstant libc year month day hour minute second)).tm_isdst = 0
    · rw [h1, h0]; decide
    · simp [h1, h0] at h
  · simp [h1] at h

/-- Witness for C8: the overlap input 2024-10-27 02:30:00. -/
theorem ambiguous_instants_witness :
    (libc.localtime (probeInstant libc 2024 10 27 2 30 0)).tm_isdst
      ≠ (libc.localtime (firstInstant libc 2024 10 27 2 30 0)).tm_isdst ∧
    probeInstant libc 2024 10 27 2 30 0 < firstInstant libc 2024 10 27 2 30 0 ∧
    firstInstant libc 2024 10 27 2 30 0 - probeInstant libc 2024 10 27 2 30 0 = 3600 :=
  ambiguous_instants 2024 10 27 2 30 0 (by decide)

/-- C2: under the rule, every wall-clock time from 02:00:00 to 02:59:59 on
2024-10-27 (the fall-back overlap) makes `getCustomTime` return false. -/
theorem overlap_ambiguous (m s : Int) (hm : 0 ≤ m ∧ m ≤ 59) (hs : 0 ≤ s ∧ s ≤ 59) :
    (getCustomTime libc 2024 10 27 2 m s).1 = false := by
  have hd : daysFromCivil 2024 10 27 = 20023 := by decide
  have h0 : firstInstant libc 2024 10 27 2 m s = 86400 * 20023 + (3600 + 60 * m + s) := by
    rw [firstInstant_libc, wallSeconds_firstArg, hd]; omega
  have h1 : firstInstant libc 2024 10 27 2 m s - 3600 = 86400 * 20023 + (60 * m + s) := by
    rw [h0]; omega
  have e0 := isDST_oct27 (3600 + 60 * m + s) (by omega) (by omega)
  have e1 := isDST_oct27 (60 * m + s) (by omega) (by omega)
  have n0 : ¬ (3600 + 60 * m + s < 3600) := by omega
  have n1 : 60 * m + s < 3600 := by omega
  rw [getCustomTime_libc, h1, h0, e0, e1]
  simp [n0, n1]

/-- Witness for C2: 2024-10-27 02:30:00. -/
theorem overlap_ambiguous_witness : (getCustomTime libc 2024 10 27 2 30 0).1 = false :=
  overlap_ambiguous 30 0 (by decide) (by decide)

/-- C5: under the rule, for every wall-clock time from 02:00:00 to 02:59:59 on
2024-03-31 (the spring-forward gap) `getCustomTime` returns true and the struct it
leaves is exactly `localtime(t0)`, the normalization of the first conversion. -/
theorem gap_passes_through (m s : Int) (hm : 0 ≤ m ∧ m ≤ 59) (hs : 0 ≤ s ∧ s ≤ 59) :
    getCustomTime libc 2024 3 31 2 m s
      = (true, libc.localtime (firstInstant libc 2024 3 31 2 m s)) := by
  have hd : daysFromCivil 2024 3 31 = 19813 := by decide
  have h0 : firstInstant libc 2024 3 31 2 m s = 86400 * 19813 + (3600 + 60 * m + s) := by
    rw [firstInstant_libc, wallSeconds_firstArg, hd]; omega
  have h1 : firstInstant libc 2024 3 31 2 m s - 3600 = 86400 * 19813 + (60 * m + s) := by
    rw [h0]; omega
  have e1 := isDST_mar31 (60 * m + s) (by omega) (by omega)
  have n1 : ¬ (3600 ≤ 60 * m + s) := by omega
  rw [getCustomTime_libc, h1, e1]
  simp [n1, libc]

/-- Witness for C5: 2024-03-31 02:30:00. -/
theorem gap_passes_through_witness :
    getCustomTime libc 2024 3 31 2 30 0
      = (true, libc.localtime (firstInstant libc 2024 3 31 2 30 0)) :=
  gap_passes_through 30 0 (by decide) (by decide)

/-- C4: under the rule, for every non-leap year `y`, `getCustomTime(y, 2, 29, 0, 0, 0)`
returns true and leaves the normalized date `y`-03-01 00:00:00 with `tm_isdst = 0`
(`tm_year = y - 1900`, `tm_mon = 2`, `tm_mday = 1`, hour, minute and second 0). -/
theorem feb29_normalized (y : Int) (hy : ¬ (y % 4 = 0 ∧ (y % 100 ≠ 0 ∨ y % 400 = 0))) :
    (getCustomTime libc y 2 29 0 0 0).1 = true ∧
    (getCustomTime libc y 2 29 0 0 0).2.tm_year = y - 1900 ∧
    (getCustomTime libc y 2 29 0 0 0).2.tm_mon = 2 ∧
    (getCustomTime libc y 2 29 0 0 0).2.tm_mday = 1 ∧
    (getCustomTime libc y 2 29 0 0 0).2.tm_hour = 0 ∧
    (getCustomTime libc y 2 29 0 0 0).2.tm_min = 0 ∧
    (getCustomTime libc y 2 29 0 0 0).2.tm_sec = 0 ∧
    (getCustomTime libc y 2 29 0 0 0).2.tm_isdst = 0 := by
  have st := daysBeforeMarchYear_step (y - 1)
  rw [sub_add_cancel] at st
  have hz : daysFromCivil y 2 29 = daysBeforeMarchYear y - 719468 := by
    have e : daysFromCivil y 2 29 = daysBeforeMarchYear (y - 1) + 365 - 719468 := by
      simp only [daysFromCivil]; norm_num; omega
    rw [e]
    simp only [daysBeforeMarchYear]
    omega
  have h0 : firstInstant libc y 2 29 0 0 0
      = 86400 * (daysBeforeMarchYear y - 719468) - 3600 := by
    rw [firstInstant_libc, wallSeconds_firstArg, hz]; omega
  have bm := lastSunday_mar_bounds y
  have y0 : (civilFromDays ((86400 * (daysBeforeMarchYear y - 719468) - 3600) / 86400)).1 = y :=
    civilYear_of_winter_days _ _ (by omega) (by omega)
  have y1 : (civilFromDays ((86400 * (daysBeforeMarchYear y - 719468) - 3600 - 3600)
      / 86400)).1 = y :=
    civilYear_of_winter_days _ _ (by omega) (by omega)
  have d0 : isDST (86400 * (daysBeforeMarchYear y - 719468) - 3600) = false := by
    rw [isDST_of_year _ _ y0, decide_eq_false_iff_not]
    simp only [dstStart]; omega
  have d1 : isDST (86400 * (daysBeforeMarchYear y - 719468) - 3600 - 3600) = false := by
    rw [isDST_of_year _ _ y1, decide_eq_false_iff_not]
    simp only [dstStart]; omega
  have st1 := daysBeforeMarchYear_step y
  have hm : marchYearOfDays (daysBeforeMarchYear y - 719468) = (y, 0) := by
    rw [marchYearOfDays_unique y _ (by omega) (by omega)]
    congr 1; omega
  have hc : civilFromDays (daysBeforeMarchYear y - 719468) = (y, 3, 1) := by
    simp only [civilFromDays, hm, civilOfMarchYear]
    norm_num
  have e1 : (86400 * (daysBeforeMarchYear y - 719468) - 3600 + 3600) / 86400
      = daysBeforeMarchYear y - 719468 := by omega
  have e2 : (86400 * (daysBeforeMarchYear y - 719468) - 3600 + 3600) % 86400 = 0 := by omega
  rw [getCustomTime_libc, h0, d0, d1]
  simp only [Bool.false_eq_true, if_false, localtime, d0, brokenDown, e1, e2, hc]
  norm_num

/-- Witness for C4: the year 2023. -/
theorem feb29_normalized_witness :
    (getCustomTime libc 2023 2 29 0 0 0).1 = true ∧
    (getCustomTime libc 2023 2 29 0 0 0).2.tm_year = 2023 - 1900 ∧
    (getCustomTime libc 2023 2 29 0 0 0).2.tm_mon = 2 ∧
    (getCustomTime libc 2023 2 29 0 0 0).2.tm_mday = 1 ∧
    (getCustomTime libc 2023 2 29 0 0 0).2.tm_hour = 0 ∧
    (getCustomTime libc 2023 2 29 0 0 0).2.tm_min = 0 ∧
    (getCustomTime libc 2023 2 29 0 0 0).2.tm_sec = 0 ∧
    (getCustomTime libc 2023 2 29 0 0 0).2.tm_isdst = 0 :=
  feb29_normalized 2023 (by decide)

/-- C3, evaluated where it fails: under the rule, the valid summer date-time
2024-08-31 23:59:59 (outside every gap and overlap) makes `getCustomTime` return
true with a struct that reads day 1 of September (`tm_mon = 8`) and `tm_hour = -1`,
not the input wall-clock time. The four date-times named in the claim do come back
unchanged, with the `tm_isdst` the claim gives. -/
theorem summer_last_hour_not_preserved :
    getCustomTime libc 2024 8 31 23 59 59
      = (true, { tm_sec := 59, tm_min := 59, tm_hour := -1, tm_mday := 1, tm_mon := 8,
                 tm_year := 124, tm_wday := 0, tm_yday := 244, tm_isdst := 1 }) ∧
    getCustomTime libc 2024 3 31 1 59 59
      = (true, { tm_sec := 59, tm_min := 59, tm_hour := 1, tm_mday := 31, tm_mon := 2,
                 tm_year := 124, tm_wday := 0, tm_yday := 90, tm_isdst := 0 }) ∧
    getCustomTime libc 2024 10 27 3 0 0
      = (true, { tm_sec := 0, tm_min := 0, tm_hour := 3, tm_mday := 27, tm_mon := 9,
                 tm_year := 124, tm_wday := 0, tm_yday := 300, tm_isdst := 0 }) ∧
    getCustomTime libc 2024 3 31 3 0 0
      = (true, { tm_sec := 0, tm_min := 0, tm_hour := 3, tm_mday := 31, tm_mon := 2,
                 tm_year := 124, tm_wday := 0, tm_yday := 90, tm_isdst := 1 }) ∧
    getCustomTime libc 2024 10 27 1 59 59
      = (true, { tm_sec := 59, tm_min := 59, tm_hour := 1, tm_mday := 27, tm_mon := 9,
                 tm_year := 124, tm_wday := 0, tm_yday := 300, tm_isdst := 1 }) := by
  refine ⟨?_, ?_, ?_, ?_, ?_⟩ <;> decide

/-- C10, evaluated where it fails: under the rule `localtime` only produces hours
in 0..23, yet for the summer input 2024-07-01 23:30:00, whose `t0` reads 00:30:00
of 2 July, `getCustomTime` returns true and leaves `tm_hour = -1`. -/
theorem summer_hour_minus_one :
    (∀ t : Int, 0 ≤ (libc.localtime t).tm_hour ∧ (libc.localtime t).tm_hour ≤ 23) ∧
    libc.localtime (firstInstant libc 2024 7 1 23 30 0)
      = { tm_sec := 0, tm_min := 30, tm_hour := 0, tm_mday := 2, tm_mon := 6,
          tm_year := 124, tm_wday := 2, tm_yday := 183, tm_isdst := 1 } ∧
    getCustomTime libc 2024 7 1 23 30 0
      = (true, { tm_sec := 0, tm_min := 30, tm_hour := -1, tm_mday := 2, tm_mon := 6,
                 tm_year := 124, tm_wday := 2, tm_yday := 183, tm_isdst := 1 }) := by
  refine ⟨?_, by decide, by decide⟩
  intro t
  show 0 ≤ (localtime t).tm_hour ∧ (localtime t).tm_hour ≤ 23
  simp only [localtime]
  split_ifs <;> simp only [brokenDown] <;> omega

/-- C7: under the rule, `getCustomTime` is idempotent on resolved outcomes: when it
returns true leaving the struct `r`, calling it again on the fields of `r`
(`tm_year + 1900`, `tm_mon + 1`, `tm_mday`, `tm_hour`, `tm_min`, `tm_sec`) returns
true and leaves a struct equal to `r` in every field. -/
theorem getCustomTime_idempotent (year month day hour minute second : Int)
    (h : (getCustomTime libc year month day hour minute second).1 = true) :
    getCustomTime libc
        ((getCustomTime libc year month day hour minute second).2.tm_year + 1900)
        ((getCustomTime libc year month day hour minute second).2.tm_mon + 1)
        (getCustomTime libc year month day hour minute second).2.tm_mday
        (getCustomTime libc year month day hour minute second).2.tm_hour
        (getCustomTime libc year month day hour minute second).2.tm_min
        (getCustomTime libc year month day hour minute second).2.tm_sec
      = (true, (getCustomTime libc year month day hour minute second).2) := by
  have hg := getCustomTime_libc year month day hour minute second
  generalize firstInstant libc year month day hour minute second = t at hg
  generalize getCustomTime libc year month day hour minute second = g at hg h ⊢
  by_cases h1 : isDST (t - 3600) = true
  · by_cases h0 : isDST t = true
    · -- both instants under DST: the struct is `localtime t` one hour back
      rw [if_pos h1, if_pos h0] at hg
      have hw : wallSeconds g.2 - 3600 = t := by
        have := wallSeconds_localtime t
        rw [if_pos h0] at this
        rw [hg]
        simp only [wallSeconds] at this ⊢
        omega
      rw [getCustomTime_libc, firstInstant_libc_of_tm, hw, if_pos h1, if_pos h0, hg]
    · rw [if_pos h1, if_neg h0] at hg
      rw [hg] at h
      simp at h
  · rw [if_neg h1] at hg
    by_cases h0 : isDST t = true
    · -- the spring-forward hour: the struct already reads one hour later
      have hw : wallSeconds g.2 - 3600 = t + 3600 := by
        have := wallSeconds_localtime t
        rw [if_pos h0] at this
        rw [hg]; simp only; omega
      obtain ⟨h2, h3⟩ := spring_forward_hour t h0 (by simpa using h1)
      have e : t + 3600 - 3600 = t := by omega
      have e2 : t + 3600 + 7200 = t + 10800 := by omega
      have e3 : t + 10800 - 3600 = t + 7200 := by omega
      rw [getCustomTime_libc, firstInstant_libc_of_tm, hw, e, if_pos h0, if_pos h2, hg]
      simp only [localtime, h2, h0, if_true, e2]
      rw [brokenDown_hour_back _ _ h3, e3]
    · have hw : wallSeconds g.2 - 3600 = t := by
        have := wallSeconds_localtime t
        rw [if_neg h0] at this
        rw [hg]; simp only; omega
      rw [getCustomTime_libc, firstInstant_libc_of_tm, hw, if_neg h1, hg]

/-- Witness for C7: the gap input 2024-03-31 02:30:00, which resolves to 03:30:00. -/
theorem getCustomTime_idempotent_witness :
    getCustomTime libc
        ((getCustomTime libc 2024 3 31 2 30 0).2.tm_year + 1900)
        ((getCustomTime libc 2024 3 31 2 30 0).2.tm_mon + 1)
        (getCustomTime libc 2024 3 31 2 30 0).2.tm_mday
        (getCustomTime libc 2024 3 31 2 30 0).2.tm_hour
        (getCustomTime libc 2024 3 31 2 30 0).2.tm_min
        (getCustomTime libc 2024 3 31 2 30 0).2.tm_sec
      = (true, (getCustomTime libc 2024 3 31 2 30 0).2) :=
  getCustomTime_idempotent 2024 3 31 2 30 0 (by decide)

end TimesESP32
